import Mathlib

/-!
Verification of the kotlin_index indexing engine
(`src/legacy-python-mcp/src/kotlin_index`): a shallow embedding of the
file/symbol/module indexers and the SQLite-backed store, with theorems
checking the stated behavioural properties against the embedded code.

Timestamps (`st_mtime`, `modified_at`, `indexed_at`) are Python floats;
they are modelled as rationals, which preserves the exact ordering and
equality comparisons the code performs.
-/

namespace KI

/-- Python truthiness of an optional string: `None` and `""` are falsy. -/
def truthyStr : Option String → Option String
  | none => none
  | some s => if s = "" then none else some s

/-- Python truthiness of an optional numeric column: `NULL` and `0.0` are falsy. -/
def truthyTime : Option ℚ → Bool
  | none => false
  | some x => decide (x ≠ 0)

/-! ## Store rows (tables from `db/schema.py`) -/

/-- A row of the `symbols` table. -/
structure SymbolRow where
  id : ℕ
  name : String
  stype : String
  file_id : ℕ
  line : ℕ
  end_line : Option ℕ
  signature : Option String
  parent_symbol_id : Option ℕ
  deriving DecidableEq, Repr

/-- A row of the `inheritance` table. -/
structure InheritanceRow where
  symbol_id : ℕ
  parent_name : String
  inheritance_type : String
  deriving DecidableEq, Repr

/-- A row of the `symbol_references` table. -/
structure ReferenceRow where
  symbol_name : String
  file_id : ℕ
  line : ℕ
  context : String
  deriving DecidableEq, Repr

/-- A row of the `modules` table. -/
structure ModuleRow where
  id : ℕ
  name : String
  path : String
  mtype : String
  deriving DecidableEq, Repr

/-- A row of the `module_deps` table. -/
structure ModuleDepRow where
  module_id : ℕ
  dep_module_name : String
  dep_type : String
  deriving DecidableEq, Repr

/-- The mutable part of the store touched by symbol indexing
(`symbols`, `inheritance`, `symbol_references`), plus the
`AUTOINCREMENT` counter for symbol row ids. -/
structure Store where
  symbols : List SymbolRow
  inheritance : List InheritanceRow
  symbol_refs : List ReferenceRow
  nextSymbolId : ℕ
  deriving DecidableEq, Repr

/-- A store with empty tables; SQLite `AUTOINCREMENT` row ids start at 1. -/
def Store.empty : Store := ⟨[], [], [], 1⟩

/-! ## Database primitives (`db/database.py`) -/

/-- Embedding of `Database.upsert_symbol`: plain `INSERT` into `symbols`, returning
`lastrowid`. -/
def upsert_symbol (st : Store) (name stype : String) (file_id line : ℕ)
    (end_line : Option ℕ) (signature : Option String)
    (parent_id : Option ℕ) : ℕ × Store :=
  let sid := st.nextSymbolId
  (sid, { st with
            symbols := st.symbols ++ [⟨sid, name, stype, file_id, line, end_line, signature, parent_id⟩],
            nextSymbolId := sid + 1 })

/-- Embedding of `Database.add_inheritance`: `INSERT OR IGNORE` under the
`UNIQUE(symbol_id, parent_name)` constraint of the `inheritance` table. -/
def add_inheritance (st : Store) (symbol_id : ℕ) (parent_name inheritance_type : String) : Store :=
  if st.inheritance.any (fun r => r.symbol_id = symbol_id ∧ r.parent_name = parent_name) then st
  else { st with inheritance := st.inheritance ++ [⟨symbol_id, parent_name, inheritance_type⟩] }

/-- Embedding of `Database.add_reference`: plain `INSERT` into `symbol_references`. -/
def add_reference (st : Store) (symbol_name : String) (file_id line : ℕ) (context : String) : Store :=
  { st with symbol_refs := st.symbol_refs ++ [⟨symbol_name, file_id, line, context⟩] }

/-- Embedding of `Database.delete_symbols_by_file`:
`DELETE FROM symbols WHERE file_id = ?`. -/
def delete_symbols_by_file (st : Store) (file_id : ℕ) : Store :=
  { st with symbols := st.symbols.filter (fun s => ¬ s.file_id = file_id) }

/-- Embedding of `Database.delete_inheritance_by_file`:
`DELETE FROM inheritance WHERE symbol_id IN (SELECT id FROM symbols WHERE file_id = ?)`.
The subquery runs against the `symbols` table as it stands when this
statement executes. -/
def delete_inheritance_by_file (st : Store) (file_id : ℕ) : Store :=
  { st with inheritance := st.inheritance.filter fun r =>
      ¬ st.symbols.any (fun s => s.file_id = file_id ∧ s.id = r.symbol_id) }

/-- Embedding of `Database.delete_references_by_file`:
`DELETE FROM symbol_references WHERE file_id = ?`. -/
def delete_references_by_file (st : Store) (file_id : ℕ) : Store :=
  { st with symbol_refs := st.symbol_refs.filter (fun r => ¬ r.file_id = file_id) }

/-! ## Module indexer (`indexer/module_indexer.py`) -/

/-- Embedding of `ModuleIndexer._normalize_module_name`: the body is `return name`. -/
def normalize_module_name (name : String) : String :=
  name

/-! ## SQLite `LIKE` and `Database.get_module_dependents` -/

/-- ASCII lower-casing, as SQLite's default `LIKE` applies to `A`-`Z`. -/
def asciiLower (c : Char) : Char :=
  if 'A' ≤ c ∧ c ≤ 'Z' then Char.ofNat (c.toNat + 32) else c

/-- SQLite `LIKE` pattern matching over character lists: `%` matches any
sequence, `_` any single character, other characters match
ASCII-case-insensitively. -/
def likeMatch : List Char → List Char → Bool
  | [], [] => true
  | '%' :: ps, s =>
    likeMatch ps s ||
      (match s with
       | [] => false
       | _ :: s' => likeMatch ('%' :: ps) s')
  | '_' :: ps, _ :: s => likeMatch ps s
  | p :: ps, c :: s => (asciiLower p = asciiLower c) && likeMatch ps s
  | _ :: _, [] => false
  | [], _ :: _ => false
termination_by p s => (s.length, p.length)

/-- Embedding of `expr LIKE pattern` on strings. -/
def sqliteLike (pattern s : String) : Bool :=
  likeMatch pattern.data s.data

/-- A result row of `Database.get_module_dependents`
(`m.name AS module_name, md.dep_type`). -/
structure DependentRow where
  module_name : String
  dep_type : String
  deriving DecidableEq, Repr

/-- Embedding of `Database.get_module_dependents`: join `module_deps` with `modules` on
`module_id`, filter `dep_module_name LIKE '%' || ? || '%'`, order by
module name. -/
def get_module_dependents (modules : List ModuleRow) (module_deps : List ModuleDepRow)
    (module_name : String) : List DependentRow :=
  (module_deps.flatMap fun md =>
    modules.filterMap fun m =>
      if md.module_id = m.id ∧ sqliteLike ("%" ++ module_name ++ "%") md.dep_module_name
      then some ⟨m.name, md.dep_type⟩ else none).mergeSort
    (fun a b => decide (a.module_name ≤ b.module_name))

/-! ## `FileIndexer.index_all` per-file decision (`indexer/file_indexer.py`) -/

/-- A row of the `files` table as used by the file scanner. -/
structure ScanFileRow where
  path : String
  name : String
  extension : String
  module : String
  modified_at : ℚ
  indexed_at : ℚ
  deriving DecidableEq, Repr

/-- Embedding of `Database.get_file_by_path`: `SELECT * FROM files WHERE path = ?`. -/
def get_file_by_path (files : List ScanFileRow) (path : String) : Option ScanFileRow :=
  files.find? (fun f => f.path = path)

/-- Embedding of `Database.upsert_file`: `INSERT ... ON CONFLICT(path) DO UPDATE`;
`indexed_at` is set to the current time. -/
def upsert_file (files : List ScanFileRow) (path name extension module : String)
    (modified_at now : ℚ) : List ScanFileRow :=
  if files.any (fun f => f.path = path) then
    files.map fun f =>
      if f.path = path then
        { f with name := name, extension := extension, module := module,
                 modified_at := modified_at, indexed_at := now }
      else f
  else files ++ [⟨path, name, extension, module, modified_at, now⟩]

/-- The body of the per-file loop of `FileIndexer.index_all` (lines
42-62): look the scanned path up, skip — touching nothing — when the
stored `modified_at` equals the current mtime, otherwise upsert the row.
Returns the updated `files` table and whether the file was skipped.
File content never enters this step: only the path and its mtime do. -/
def index_all_file_step (files : List ScanFileRow) (path name extension module : String)
    (mtime now : ℚ) : List ScanFileRow × Bool :=
  match get_file_by_path files path with
  | some existing =>
    if existing.modified_at = mtime then (files, true)
    else (upsert_file files path name extension module mtime now, false)
  | none => (upsert_file files path name extension module mtime now, false)

/-! ## `SymbolIndexer.index_incremental` skip decision -/

/-- The data the incremental loop reads for one file: its stored
`modified_at` and `indexed_at` columns and the mtime `stat` reports now
(`none` models `FileNotFoundError`). -/
structure IncFileRow where
  id : ℕ
  modified_at : ℚ
  indexed_at : Option ℚ
  current_mtime : Option ℚ
  deriving DecidableEq, Repr

/-- The skip test of `SymbolIndexer.index_incremental` (line 192):
`if indexed_at and current_mtime <= modified_at`. -/
def inc_should_skip (modified_at : ℚ) (indexed_at : Option ℚ) (current_mtime : ℚ) : Bool :=
  truthyTime indexed_at && decide (current_mtime ≤ modified_at)

/-- The loop of `SymbolIndexer.index_incremental` restricted to its
control flow: files whose `stat` raises are passed over silently;
files passing the skip test bump the `skipped` tally; the rest are
re-parsed. Returns the re-parsed file ids in order and the tally. -/
def incremental_scan : List IncFileRow → List ℕ × ℕ
  | [] => ([], 0)
  | f :: rest =>
    match f.current_mtime with
    | none => incremental_scan rest
    | some m =>
      if inc_should_skip f.modified_at f.indexed_at m then
        let p := incremental_scan rest
        (p.1, p.2 + 1)
      else
        let p := incremental_scan rest
        (f.id :: p.1, p.2)

/-- Modelled from the spec: "restrict the symbol/reference passes to
files whose current modification time exceeds their stored indexedAt" —
the claim's re-parse criterion, stated on the spec's own column. -/
def spec_inc_reparse (indexed_at : ℚ) (current_mtime : ℚ) : Prop :=
  current_mtime > indexed_at

/-- A file the incremental loop re-parses (exists on disk, fails the
skip test). -/
def inc_reparses (f : IncFileRow) : Bool :=
  match f.current_mtime with
  | none => false
  | some m => ¬ inc_should_skip f.modified_at f.indexed_at m

/-- A file the incremental loop skips and tallies (exists on disk,
passes the skip test). -/
def inc_skips (f : IncFileRow) : Bool :=
  match f.current_mtime with
  | none => false
  | some m => inc_should_skip f.modified_at f.indexed_at m

/-! ## `SymbolIndexer.index_all` failure accounting -/

/-- Outcome of handling one file inside the first pass of
`SymbolIndexer.index_all`: the content read raises (caught inside
`_index_kotlin_file` / `_index_java_file`), the per-file indexing call
raises past that handler (e.g. in the tree-sitter walk), or indexing
succeeds with symbol/inheritance counts. -/
inductive FileOutcome where
  | readFail
  | parseFail
  | parsed (symbols inheritance : ℕ)
  deriving DecidableEq, Repr

/-- Embedding of `SymbolIndexer._index_kotlin_file` / `_index_java_file`: a failing
`read_text` is caught by the inner `try`/`except` and reported as a
successful result of `(0, 0)`; an exception from the indexing itself
propagates to the caller. -/
def index_one_file : FileOutcome → Except Unit (ℕ × ℕ)
  | .readFail => .ok (0, 0)
  | .parseFail => .error ()
  | .parsed s i => .ok (s, i)

/-- The tallies of the first pass of `SymbolIndexer.index_all`. -/
structure SymStats where
  files : ℕ
  symbols : ℕ
  inheritance : ℕ
  errors : ℕ
  deriving DecidableEq, Repr

/-- The first pass of `SymbolIndexer.index_all` (lines 107-134): each
file is processed under `try`/`except`; an escaping exception bumps
`errors` and the loop continues with the next file. The function is
total: no outcome propagates to the caller. -/
def index_all_symbol_pass : List FileOutcome → SymStats
  | [] => ⟨0, 0, 0, 0⟩
  | j :: rest =>
    let st := index_all_symbol_pass rest
    match index_one_file j with
    | .ok (s, i) => { st with files := st.files + 1, symbols := st.symbols + s,
                              inheritance := st.inheritance + i }
    | .error _ => { st with errors := st.errors + 1 }

/-! ## Tree-sitter syntax nodes

A parsed node carries its node type, the source slice it spans
(`content[start_byte:end_byte]`, used when the node is an identifier-like
leaf), its line span (`start_point`/`end_point` rows, already converted
to 1-based as the indexer does), and its children. -/

inductive Node : Type where
  | node (ntype : String) (text : String) (startLine endLine : ℕ) (children : List Node)

/-- The node's grammar type (`node.type`). -/
def Node.ntype : Node → String
  | .node t _ _ _ _ => t

/-- The source text the node spans. -/
def Node.text : Node → String
  | .node _ x _ _ _ => x

/-- Embedding of `node.start_point[0] + 1`. -/
def Node.startLine : Node → ℕ
  | .node _ _ s _ _ => s

/-- Embedding of `node.end_point[0] + 1`. -/
def Node.endLine : Node → ℕ
  | .node _ _ _ e _ => e

/-- Embedding of `node.children`. -/
def Node.children : Node → List Node
  | .node _ _ _ _ cs => cs

/-! ## Grammar-based extraction helpers (`indexer/symbol_indexer.py`) -/

/-- Embedding of `SymbolIndexer._get_identifier`: the text of the first child of type
`identifier`. -/
def get_identifier (n : Node) : Option String :=
  n.children.findSome? fun c => if c.ntype = "identifier" then some c.text else none

/-- Embedding of `SymbolIndexer._get_java_identifier`: same lookup on a Java node. -/
def get_java_identifier (n : Node) : Option String :=
  n.children.findSome? fun c => if c.ntype = "identifier" then some c.text else none

/-- Embedding of `SymbolIndexer._get_property_name`: the identifier inside the first
`variable_declaration` child. -/
def get_property_name (n : Node) : Option String :=
  n.children.findSome? fun c =>
    if c.ntype = "variable_declaration" then
      c.children.findSome? fun sub => if sub.ntype = "identifier" then some sub.text else none
    else none

/-- Embedding of `SymbolIndexer._get_property_type`: the `user_type` inside the first
`variable_declaration` child. -/
def get_property_type (n : Node) : Option String :=
  n.children.findSome? fun c =>
    if c.ntype = "variable_declaration" then
      c.children.findSome? fun sub => if sub.ntype = "user_type" then some sub.text else none
    else none

/-- Scan of a `modifiers` child by `_detect_kotlin_class_type`: a
`class_modifier` child with children is searched for an `enum` node. -/
def find_enum_modifier (mods : List Node) : Option String :=
  mods.findSome? fun m =>
    if m.ntype = "class_modifier" ∧ ¬ m.children.isEmpty then
      m.children.findSome? fun sub => if sub.ntype = "enum" then some "enum" else none
    else none

/-- Embedding of `SymbolIndexer._detect_kotlin_class_type`: walk the children of a
Kotlin `class_declaration`; an `interface` child makes it an interface, a
`modifiers` child holding an `enum` class modifier makes it an enum,
otherwise it is a class. -/
def detect_kotlin_class_type (n : Node) : String :=
  go n.children
where
  /-- One step of the child scan. -/
  go : List Node → String
    | [] => "class"
    | c :: rest =>
      if c.ntype = "interface" then "interface"
      else if c.ntype = "modifiers" then
        match find_enum_modifier c.children with
        | some t => t
        | none => go rest
      else go rest

mutual

/-- Embedding of `SymbolIndexer._extract_type_name`: pull the base identifier out of a
Kotlin supertype node (`user_type`, `constructor_invocation`,
`delegation_specifier`, or an identifier leaf). -/
def extract_type_name : Node → Option String
  | Node.node t x _ _ cs =>
    if t = "user_type" then
      cs.findSome? fun c =>
        if c.ntype = "type_identifier" ∨ c.ntype = "identifier" then some c.text else none
    else if t = "constructor_invocation" then extract_type_name_ctor cs
    else if t = "delegation_specifier" then extract_type_name_deleg cs
    else if t = "type_identifier" ∨ t = "identifier" then some x
    else none

/-- The `constructor_invocation` branch of `_extract_type_name`: recurse
into the first `user_type` child and return its result unconditionally. -/
def extract_type_name_ctor : List Node → Option String
  | [] => none
  | c :: rest =>
    if c.ntype = "user_type" then extract_type_name c else extract_type_name_ctor rest

/-- The `delegation_specifier` branch of `_extract_type_name`: return the
first truthy (non-`None`, non-empty) recursive result. -/
def extract_type_name_deleg : List Node → Option String
  | [] => none
  | c :: rest =>
    match truthyStr (extract_type_name c) with
    | some r => some r
    | none => extract_type_name_deleg rest

end

/-- Embedding of `SymbolIndexer._extract_java_type_name`: a `type_identifier` leaf, or
the `type_identifier` inside a `generic_type` (generic arguments are
dropped). -/
def extract_java_type_name (n : Node) : Option String :=
  if n.ntype = "type_identifier" then some n.text
  else if n.ntype = "generic_type" then
    n.children.findSome? fun c => if c.ntype = "type_identifier" then some c.text else none
  else none

/-- The contribution of one child of a Kotlin class-like node to
`SymbolIndexer._get_kotlin_supertypes`: every accepted specifier under a
`delegation_specifiers` child yields an `extends` edge — Kotlin's single
`:` clause is normalized uniformly to `"extends"`. -/
def kotlin_edges_of_child (child : Node) : List (String × String) :=
  if child.ntype = "delegation_specifiers" then
    child.children.flatMap fun spec =>
      if spec.ntype = "delegation_specifier" ∨ spec.ntype = "user_type" ∨
          spec.ntype = "constructor_invocation" then
        match truthyStr (extract_type_name spec) with
        | some tn => [(tn, "extends")]
        | none => []
      else []
  else []

/-- Embedding of `SymbolIndexer._get_kotlin_supertypes`. -/
def get_kotlin_supertypes (n : Node) : List (String × String) :=
  n.children.flatMap kotlin_edges_of_child

/-- The contribution of one child of a Java class-like node to
`SymbolIndexer._get_java_supertypes`: a `superclass` clause yields
`extends` edges, a `super_interfaces` clause `implements` edges, an
`extends_interfaces` clause (interface extending interfaces) `extends`
edges. -/
def java_edges_of_child (child : Node) : List (String × String) :=
  if child.ntype = "superclass" then
    child.children.flatMap fun sub =>
      match truthyStr (extract_java_type_name sub) with
      | some tn => [(tn, "extends")]
      | none => []
  else if child.ntype = "super_interfaces" then
    child.children.flatMap fun sub =>
      if sub.ntype = "type_list" then
        sub.children.flatMap fun tnode =>
          match truthyStr (extract_java_type_name tnode) with
          | some tn => [(tn, "implements")]
          | none => []
      else []
  else if child.ntype = "extends_interfaces" then
    child.children.flatMap fun sub =>
      if sub.ntype = "type_list" then
        sub.children.flatMap fun tnode =>
          match truthyStr (extract_java_type_name tnode) with
          | some tn => [(tn, "extends")]
          | none => []
      else []
  else []

/-- Embedding of `SymbolIndexer._get_java_supertypes`. -/
def get_java_supertypes (n : Node) : List (String × String) :=
  n.children.flatMap java_edges_of_child

/-! ## Grammar-based traversal (`_index_kotlin_with_tree_sitter`,
`_index_java_with_tree_sitter`) -/

/-- The dispatch at the top of the Kotlin `visit_node`: which symbol
type, name and signature (if any) the node contributes. -/
def kotlin_classify (n : Node) : Option String × Option String × Option String :=
  if n.ntype = "class_declaration" then
    (some (detect_kotlin_class_type n), get_identifier n, none)
  else if n.ntype = "object_declaration" then
    (some "object", get_identifier n, none)
  else if n.ntype = "function_declaration" then
    (some "function", get_identifier n,
      n.children.findSome? fun c =>
        if c.ntype = "function_value_parameters" then some c.text else none)
  else if n.ntype = "property_declaration" then
    (some "property", get_property_name n, get_property_type n)
  else (none, none, none)

/-- Embedding of `field_declaration` name lookup in the Java `visit_node`: the
identifier of each `variable_declarator` child overwrites `name`, so the
last declarator carrying an identifier wins. -/
def get_java_field_name (n : Node) : Option String :=
  n.children.foldl
    (fun acc c =>
      if c.ntype = "variable_declarator" then
        match c.children.findSome? (fun sub => if sub.ntype = "identifier" then some sub.text else none) with
        | some t => some t
        | none => acc
      else acc)
    none

/-- The dispatch at the top of the Java `visit_node`. -/
def java_classify (n : Node) : Option String × Option String × Option String :=
  if n.ntype = "class_declaration" then
    (some "class", get_java_identifier n, none)
  else if n.ntype = "interface_declaration" then
    (some "interface", get_java_identifier n, none)
  else if n.ntype = "enum_declaration" then
    (some "enum", get_java_identifier n, none)
  else if n.ntype = "method_declaration" then
    (some "function", get_java_identifier n,
      n.children.findSome? fun c =>
        if c.ntype = "formal_parameters" then some c.text else none)
  else if n.ntype = "field_declaration" then
    (some "property", get_java_field_name n, none)
  else (none, none, none)

/-- Fold `Database.add_inheritance` over the supertype pairs of one
class-like symbol. -/
def add_inheritance_list (st : Store) (symbol_id : ℕ) : List (String × String) → Store
  | [] => st
  | (pn, it) :: rest => add_inheritance_list (add_inheritance st symbol_id pn it) symbol_id rest

mutual

/-- The recursive `visit_node` of
`SymbolIndexer._index_kotlin_with_tree_sitter`: when the node classifies
as a symbol with a truthy type and name, insert it with the incoming
`parent_id`, record its supertypes when class-like, and pass its own row
id as the parent for the children; otherwise pass the incoming parent
through unchanged. -/
def kotlin_visit_node (file_id : ℕ) : Node → Option ℕ → Store → Store
  | n@(Node.node _ _ startL endL cs), parent_id, st =>
    let cls := kotlin_classify n
    match truthyStr cls.1, truthyStr cls.2.1 with
    | some stype, some name =>
      let (sid, st1) := upsert_symbol st name stype file_id startL (some endL) cls.2.2 parent_id
      let st2 :=
        if stype = "class" ∨ stype = "interface" ∨ stype = "object" ∨ stype = "enum" then
          add_inheritance_list st1 sid (get_kotlin_supertypes n)
        else st1
      kotlin_visit_children file_id cs (some sid) st2
    | _, _ => kotlin_visit_children file_id cs parent_id st

/-- Visit a node's children in order, threading the store. -/
def kotlin_visit_children (file_id : ℕ) : List Node → Option ℕ → Store → Store
  | [], _, st => st
  | c :: rest, parent_id, st =>
    kotlin_visit_children file_id rest parent_id (kotlin_visit_node file_id c parent_id st)

end

mutual

/-- The recursive `visit_node` of
`SymbolIndexer._index_java_with_tree_sitter`, with the same
parent-threading discipline as the Kotlin walk. -/
def java_visit_node (file_id : ℕ) : Node → Option ℕ → Store → Store
  | n@(Node.node _ _ startL endL cs), parent_id, st =>
    let cls := java_classify n
    match truthyStr cls.1, truthyStr cls.2.1 with
    | some stype, some name =>
      let (sid, st1) := upsert_symbol st name stype file_id startL (some endL) cls.2.2 parent_id
      let st2 :=
        if stype = "class" ∨ stype = "interface" ∨ stype = "enum" then
          add_inheritance_list st1 sid (get_java_supertypes n)
        else st1
      java_visit_children file_id cs (some sid) st2
    | _, _ => java_visit_children file_id cs parent_id st

/-- Visit a Java node's children in order, threading the store. -/
def java_visit_children (file_id : ℕ) : List Node → Option ℕ → Store → Store
  | [], _, st => st
  | c :: rest, parent_id, st =>
    java_visit_children file_id rest parent_id (java_visit_node file_id c parent_id st)

end

/-- The per-file unit of work of `SymbolIndexer.index_incremental`
(lines 196-215) for a changed Kotlin file: delete the file's old
symbols, inheritance and references — in that order — then re-parse and
insert the fresh rows. -/
def incremental_reindex_kotlin_file (st : Store) (file_id : ℕ) (tree : Node) : Store :=
  let st1 := delete_symbols_by_file st file_id
  let st2 := delete_inheritance_by_file st1 file_id
  let st3 := delete_references_by_file st2 file_id
  kotlin_visit_node file_id tree none st3

/-! ## Reference scanner (`SymbolIndexer._index_references`) -/

/-- The ASCII whitespace Python's `str.strip` removes (the lines scanned
here never contain the remaining Unicode whitespace). -/
def isPySpace (c : Char) : Bool :=
  c = ' ' ∨ c = '\t' ∨ c = '\n' ∨ c = '\r' ∨ c = Char.ofNat 11 ∨ c = Char.ofNat 12

/-- Python `line.strip()` on a character list. -/
def pyStrip (l : List Char) : List Char :=
  ((l.dropWhile isPySpace).reverse.dropWhile isPySpace).reverse

/-- Python `line[:pos].rstrip()`. -/
def pyRStrip (l : List Char) : List Char :=
  (l.reverse.dropWhile isPySpace).reverse

/-- Embedding of `str.startswith` on the stripped character list. -/
def listStartsWith (l : List Char) (p : String) : Bool :=
  p.data.isPrefixOf l

/-- Embedding of `str.endswith`. -/
def listEndsWith (l : List Char) (p : String) : Bool :=
  p.data.isSuffixOf l

/-- A word character of the identifier regex `[A-Za-z0-9_]`. -/
def isWordChar (c : Char) : Bool :=
  c.isAlpha ∨ c.isDigit ∨ c = '_'

/-- One pass of `re.finditer` with pattern `\b([A-Z][a-zA-Z0-9_]*)\b`
over a line's characters: the maximal word-character runs that start
with an ASCII capital, with their start positions. Each step consumes at
least one character, so a fuel of the list's length suffices; the fuel
only makes the recursion structural. -/
def scan_tokens_fuel : ℕ → ℕ → List Char → List (ℕ × String)
  | 0, _, _ => []
  | _ + 1, _, [] => []
  | fuel + 1, pos, c :: rest =>
    if isWordChar c then
      let run := c :: rest.takeWhile isWordChar
      let rest' := rest.dropWhile isWordChar
      if c.isUpper then
        (pos, String.mk run) :: scan_tokens_fuel fuel (pos + run.length) rest'
      else scan_tokens_fuel fuel (pos + run.length) rest'
    else scan_tokens_fuel fuel (pos + 1) rest

/-- The matches of the identifier regex over a line. -/
def scan_tokens (pos : ℕ) (l : List Char) : List (ℕ × String) :=
  scan_tokens_fuel l.length pos l

/-- Embedding of `SymbolIndexer._detect_usage_context`: heuristic usage context from
the text before the match (right-stripped) and from the match onward
(left-stripped). -/
def detect_usage_context (chars : List Char) (pos : ℕ) : String :=
  let before := pyRStrip (chars.take pos)
  let after := (chars.drop pos).dropWhile isPySpace
  if (after.take 20).contains '(' then "call"
  else if listEndsWith before ":" ∨ listEndsWith before "extends" ∨
      listEndsWith before "implements" then "inheritance"
  else if listEndsWith before "=" ∨ listEndsWith before "new" then "instantiation"
  else if listEndsWith before "<" ∨ (after.take 10).contains '>' then "generic"
  else "reference"

/-- The skip test of `_index_references` (line 531): the stripped line
starts with `//`, `*`, or `import `. -/
def ref_skip_line (line : String) : Bool :=
  let stripped := pyStrip line.data
  listStartsWith stripped "//" ∨ listStartsWith stripped "*" ∨
    listStartsWith stripped "import "

/-- The references `_index_references` emits for one line: nothing when
the line is skipped, otherwise one row per matched token that is a known
symbol name, with its heuristic context. -/
def index_line_refs (known_symbols : List String) (file_id line_num : ℕ)
    (line : String) : List ReferenceRow :=
  if ref_skip_line line then []
  else
    (scan_tokens 0 line.data).filterMap fun pt =>
      if known_symbols.contains pt.2 then
        some ⟨pt.2, file_id, line_num, detect_usage_context line.data pt.1⟩
      else none

/-- The `enumerate(lines, 1)` loop of `_index_references`. -/
def index_lines_refs (known_symbols : List String) (file_id : ℕ) :
    ℕ → List String → List ReferenceRow
  | _, [] => []
  | ln, l :: rest =>
    index_line_refs known_symbols file_id ln l ++
      index_lines_refs known_symbols file_id (ln + 1) rest

/-- Embedding of `SymbolIndexer._index_references` on file content that read
successfully: split on newlines and scan each line. -/
def index_references_content (known_symbols : List String) (file_id : ℕ)
    (content : String) : List ReferenceRow :=
  index_lines_refs known_symbols file_id 1 (content.splitOn "\n")

/-- Modelled from the spec: a source line that is a comment, in the
Kotlin/Java sense the spec speaks of — a line comment (`//`), a
block-comment continuation (`*`), or a block comment opened on the line
(`/*`). -/
def spec_is_comment_line (line : String) : Bool :=
  let stripped := pyStrip line.data
  listStartsWith stripped "//" ∨ listStartsWith stripped "/*" ∨
    listStartsWith stripped "*"

/-! ## Concrete parse trees and stores used as inputs -/

/-- The parse tree of `class B : A`, as the Kotlin grammar walk sees
it. -/
def kotlin_class_B_extends_A : Node :=
  Node.node "class_declaration" "" 1 3
    [Node.node "identifier" "B" 1 1 [],
     Node.node "delegation_specifiers" "" 1 1
       [Node.node "user_type" "A" 1 1 [Node.node "type_identifier" "A" 1 1 []]]]

/-- A store as it stands after file 1 (`class B : A`) was indexed once:
symbol row 1 for `B` and its inheritance edge to `A`. -/
def c2_store_before : Store :=
  ⟨[⟨1, "B", "class", 1, 1, some 3, none, none⟩], [⟨1, "A", "extends"⟩], [], 2⟩

/-- The per-clause name harvest of the Java supertype walk: the truthy
extracted type names of a child list, in order. -/
def java_clause_names (l : List Node) : List String :=
  l.filterMap fun sub => truthyStr (extract_java_type_name sub)

/-- The parse tree of `class C extends A implements I1, I2`. -/
def java_class_C_A_I1_I2 : Node :=
  Node.node "class_declaration" "" 1 5
    [Node.node "identifier" "C" 1 1 [],
     Node.node "superclass" "" 1 1
       [Node.node "extends" "extends" 1 1 [],
        Node.node "type_identifier" "A" 1 1 []],
     Node.node "super_interfaces" "" 1 1
       [Node.node "implements" "implements" 1 1 [],
        Node.node "type_list" "" 1 1
          [Node.node "type_identifier" "I1" 1 1 [],
           Node.node "," "," 1 1 [],
           Node.node "type_identifier" "I2" 1 1 []]],
     Node.node "class_body" "" 1 5 []]

/-- A Kotlin source file containing a class `cn` whose body declares a
function `fn`, followed by a file-top-level function `gn`. -/
def c7_kotlin_tree (cn fn gn : String) : Node :=
  Node.node "source_file" "" 1 10
    [Node.node "class_declaration" "" 1 5
      [Node.node "identifier" cn 1 1 [],
       Node.node "class_body" "" 1 5
         [Node.node "function_declaration" "" 2 3
           [Node.node "identifier" fn 2 2 [],
            Node.node "function_value_parameters" "()" 2 2 []]]],
     Node.node "function_declaration" "" 7 8
       [Node.node "identifier" gn 7 7 [],
        Node.node "function_value_parameters" "()" 7 7 []]]

/-- A Java program containing a class `jn` whose body declares a method
`jm`. -/
def c7_java_tree (jn jm : String) : Node :=
  Node.node "program" "" 1 10
    [Node.node "class_declaration" "" 1 5
      [Node.node "identifier" jn 1 1 [],
       Node.node "class_body" "" 1 5
         [Node.node "method_declaration" "" 2 3
           [Node.node "identifier" jm 2 2 [],
            Node.node "formal_parameters" "()" 2 2 []]]]]

/-! # Theorems -/

/-! ## C9 -/

/-- C9: the module-dependency name normalization step is the identity —
`_normalize_module_name` returns its input unchanged for every string. -/
theorem C9_normalize_module_name_identity (name : String) :
    normalize_module_name name = name :=
  rfl

/-- Witness for C9 at a concrete camelCase name. -/
theorem C9_normalize_module_name_identity_witness :
    normalize_module_name "features.tappablePoi.api" = "features.tappablePoi.api" :=
  C9_normalize_module_name_identity "features.tappablePoi.api"

/-! ## C4 -/

/-- C4: during `FileIndexer.index_all`, a scanned file whose stored
`modified_at` exactly equals its current mtime is skipped — the skip
flag holds exactly when the two timestamps are equal (exact equality,
no freshness window) — and a skipped file leaves the `files` table
untouched. Content never enters the step at all, so a file whose content
changed under an identical mtime is treated as unchanged. -/
theorem C4_index_all_exact_mtime_skip (files : List ScanFileRow)
    (path name extension module : String) (mtime now : ℚ) (existing : ScanFileRow)
    (h : get_file_by_path files path = some existing) :
    ((index_all_file_step files path name extension module mtime now).2 = true ↔
      existing.modified_at = mtime) ∧
    (existing.modified_at = mtime →
      index_all_file_step files path name extension module mtime now = (files, true)) := by
  unfold index_all_file_step
  rw [h]
  constructor
  · constructor
    · intro hskip
      by_contra hne
      simp only [if_neg hne] at hskip
      exact Bool.false_ne_true hskip
    · intro he
      simp [he]
  · intro he
    simp [he]

/-- Witness for C4: a stored row with `modified_at = 5` and a scan
seeing mtime `5` is skipped with the table unchanged. -/
theorem C4_index_all_exact_mtime_skip_witness :
    ((index_all_file_step [⟨"/p/A.kt", "A.kt", ".kt", "m", 5, 9⟩]
        "/p/A.kt" "A.kt" ".kt" "m" 5 99).2 = true ↔
      (⟨"/p/A.kt", "A.kt", ".kt", "m", 5, 9⟩ : ScanFileRow).modified_at = 5) ∧
    ((⟨"/p/A.kt", "A.kt", ".kt", "m", 5, 9⟩ : ScanFileRow).modified_at = 5 →
      index_all_file_step [⟨"/p/A.kt", "A.kt", ".kt", "m", 5, 9⟩]
        "/p/A.kt" "A.kt" ".kt" "m" 5 99 =
        ([⟨"/p/A.kt", "A.kt", ".kt", "m", 5, 9⟩], true)) :=
  C4_index_all_exact_mtime_skip _ "/p/A.kt" "A.kt" ".kt" "m" 5 99 _ (by decide)

/-! ## C1 -/

/-- C1 counterexample: a file whose stored `indexed_at` is 100, stored
`modified_at` is 50 and current mtime is 60 is re-parsed by the
incremental loop (its id lands in the re-parse list, nothing is
tallied as skipped), although its current mtime does not exceed its
stored `indexed_at` — the claim's criterion says it should be skipped.
The code compares the mtime against `modified_at`, not `indexed_at`. -/
theorem C1_counterexample :
    incremental_scan [⟨1, 50, some 100, some 60⟩] = ([1], 0) ∧
    ¬ spec_inc_reparse 100 60 := by
  constructor
  · rfl
  · intro h
    exact absurd h (by norm_num [spec_inc_reparse])

/-- C1 (amended): for every indexed file that still exists on disk, the
incremental run re-parses the file iff its stored `indexed_at` is
NULL/zero or its current mtime exceeds its stored `modified_at`; every
other existing file is skipped and counted in the skipped tally. -/
theorem C1_incremental_skip_amended (files : List IncFileRow) :
    (incremental_scan files).1 = (files.filter inc_reparses).map (fun f => f.id) ∧
    (incremental_scan files).2 = (files.filter inc_skips).length ∧
    (∀ (modified_at current_mtime : ℚ) (indexed_at : Option ℚ),
      inc_should_skip modified_at indexed_at current_mtime = false ↔
        indexed_at = none ∨ indexed_at = some 0 ∨ modified_at < current_mtime) := by
  refine ⟨?_, ?_, ?_⟩
  · induction files with
    | nil => rfl
    | cons f rest ih =>
      obtain ⟨i, ma, ia, cm⟩ := f
      cases cm with
      | none => simpa [incremental_scan, List.filter_cons, inc_reparses] using ih
      | some m =>
        by_cases hs : inc_should_skip ma ia m <;>
          simp [incremental_scan, List.filter_cons, inc_reparses, hs, ih]
  · induction files with
    | nil => rfl
    | cons f rest ih =>
      obtain ⟨i, ma, ia, cm⟩ := f
      cases cm with
      | none => simpa [incremental_scan, List.filter_cons, inc_skips] using ih
      | some m =>
        by_cases hs : inc_should_skip ma ia m <;>
          simp [incremental_scan, List.filter_cons, inc_skips, hs, ih]
  · intro ma cm ia
    cases ia with
    | none => simp [inc_should_skip, truthyTime]
    | some x =>
      by_cases hx : x = 0
      · simp [inc_should_skip, truthyTime, hx]
      · simp only [inc_should_skip, truthyTime, Bool.and_eq_false_iff]
        constructor
        · rintro (hd | hd)
          · exact absurd (of_decide_eq_false hd) (by simp [hx])
          · exact Or.inr (Or.inr (lt_of_not_le (of_decide_eq_false hd)))
        · rintro (h | h | h)
          · exact absurd h (by simp)
          · exact absurd (Option.some_injective _ h) hx
          · exact Or.inr (decide_eq_false (not_le_of_lt h))

/-! ## C8 -/

/-- C8 counterexample: a run over a single file whose content read
fails ends with an error tally of zero — the failure is swallowed
inside `_index_kotlin_file`/`_index_java_file` as a `(0, 0)` result and
the file is even counted as processed — contradicting the claim that a
read failure increments the error tally by one. -/
theorem C8_counterexample :
    (index_all_symbol_pass [FileOutcome.readFail]).errors = 0 ∧
    (index_all_symbol_pass [FileOutcome.readFail]).files = 1 :=
  ⟨rfl, rfl⟩

/-- C8 (amended): the symbol pass of `index_all` is a total function of
the per-file outcomes — no per-file failure propagates to the caller —
and after the run the error tally counts exactly the files whose
indexing call raised (e.g. a parse failure), while a file whose content
read failed is counted as processed with zero symbols; every file
contributes to exactly one of the two tallies, so no failure aborts the
processing of the remaining files. -/
theorem C8_error_accounting_amended (jobs : List FileOutcome) :
    (index_all_symbol_pass jobs).errors =
      (jobs.filter (fun j => j = FileOutcome.parseFail)).length ∧
    (index_all_symbol_pass jobs).files =
      (jobs.filter (fun j => ¬ j = FileOutcome.parseFail)).length ∧
    (index_all_symbol_pass jobs).files + (index_all_symbol_pass jobs).errors =
      jobs.length := by
  have key : ∀ js : List FileOutcome,
      (index_all_symbol_pass js).errors =
        (js.filter (fun j => j = FileOutcome.parseFail)).length ∧
      (index_all_symbol_pass js).files =
        (js.filter (fun j => ¬ j = FileOutcome.parseFail)).length := by
    intro js
    induction js with
    | nil => exact ⟨rfl, rfl⟩
    | cons j rest ih =>
      cases j <;>
        simp [index_all_symbol_pass, index_one_file, List.filter_cons, ih.1, ih.2]
  refine ⟨(key jobs).1, (key jobs).2, ?_⟩
  rw [(key jobs).1, (key jobs).2]
  have hfe : (fun j : FileOutcome => decide ¬ j = FileOutcome.parseFail)
      = (fun j : FileOutcome => ! decide (j = FileOutcome.parseFail)) := by
    funext j
    simp
  rw [hfe, Nat.add_comm]
  exact (List.length_eq_length_filter_add _).symm

/-! ## C2 -/

/-- C2: evaluating the per-file unit of `index_incremental` at the
failing input. Re-indexing file 1 leaves the old inheritance row
`(symbol 1, "A", "extends")` — derived from the file's previous parse —
in the store next to the freshly inserted `(symbol 2, "A", "extends")`,
and the old row is an orphan: the only symbol row left for the file is
the new one with id 2. `delete_inheritance_by_file` runs after
`delete_symbols_by_file` has already emptied the file's symbol rows, so
its `symbol_id IN (SELECT id FROM symbols WHERE file_id = ?)` subquery
selects nothing and the delete is a no-op. -/
theorem C2_stale_inheritance_survives :
    (incremental_reindex_kotlin_file c2_store_before 1 kotlin_class_B_extends_A).inheritance =
      [⟨1, "A", "extends"⟩, ⟨2, "A", "extends"⟩] ∧
    (incremental_reindex_kotlin_file c2_store_before 1 kotlin_class_B_extends_A).symbols =
      [⟨2, "B", "class", 1, 1, some 3, none, none⟩] :=
  ⟨rfl, rfl⟩

/-! ## C5 -/

/-- Children that are not a `delegation_specifiers` clause contribute no
Kotlin inheritance edges. -/
theorem kotlin_edges_nil_of_no_delegation (l : List Node)
    (hl : ∀ c ∈ l, ¬ c.ntype = "delegation_specifiers") :
    l.flatMap kotlin_edges_of_child = [] := by
  induction l with
  | nil => rfl
  | cons c rest ih =>
    rw [List.flatMap_cons, ih (fun x hx => hl x (List.mem_cons_of_mem _ hx))]
    have hc : kotlin_edges_of_child c = [] := by
      unfold kotlin_edges_of_child
      rw [if_neg (hl c (List.mem_cons_self _ _))]
    rw [hc, List.nil_append]

/-- C5: a Kotlin class whose single colon-delimited inheritance clause
names exactly one supertype `a` yields exactly one inheritance edge,
`(a, "extends")` — whatever kind of type `a` names, since the extraction
never inspects it. -/
theorem C5_kotlin_single_supertype (n : Node) (pre post : List Node) (ds spec : Node)
    (a : String)
    (hch : n.children = pre ++ ds :: post)
    (hpre : ∀ c ∈ pre, ¬ c.ntype = "delegation_specifiers")
    (hpost : ∀ c ∈ post, ¬ c.ntype = "delegation_specifiers")
    (hds : ds.ntype = "delegation_specifiers")
    (hone : ds.children = [spec])
    (hspec : spec.ntype = "delegation_specifier" ∨ spec.ntype = "user_type" ∨
      spec.ntype = "constructor_invocation")
    (hname : truthyStr (extract_type_name spec) = some a) :
    get_kotlin_supertypes n = [(a, "extends")] := by
  unfold get_kotlin_supertypes
  rw [hch, List.flatMap_append, List.flatMap_cons,
    kotlin_edges_nil_of_no_delegation pre hpre,
    kotlin_edges_nil_of_no_delegation post hpost]
  have hds' : kotlin_edges_of_child ds = [(a, "extends")] := by
    unfold kotlin_edges_of_child
    rw [if_pos hds, hone, List.flatMap_cons, List.flatMap_nil]
    rcases hspec with h | h | h <;> simp [h, hname]
  rw [hds']
  simp

/-- Witness for C5 at the tree of `class B : A`. -/
theorem C5_kotlin_single_supertype_witness :
    get_kotlin_supertypes kotlin_class_B_extends_A = [("A", "extends")] :=
  C5_kotlin_single_supertype kotlin_class_B_extends_A
    [Node.node "identifier" "B" 1 1 []] []
    (Node.node "delegation_specifiers" "" 1 1
      [Node.node "user_type" "A" 1 1 [Node.node "type_identifier" "A" 1 1 []]])
    (Node.node "user_type" "A" 1 1 [Node.node "type_identifier" "A" 1 1 []])
    "A" rfl
    (by intro c hc; simp at hc; subst hc; simp [Node.ntype])
    (by intro c hc; simp at hc)
    rfl rfl (Or.inr (Or.inl rfl)) rfl

/-! ## C6 -/

/-- Children that are none of the three Java inheritance clauses
contribute no edges. -/
theorem java_edges_nil_of_no_clause (l : List Node)
    (hl : ∀ c ∈ l, ¬ c.ntype = "superclass" ∧ ¬ c.ntype = "super_interfaces" ∧
      ¬ c.ntype = "extends_interfaces") :
    l.flatMap java_edges_of_child = [] := by
  induction l with
  | nil => rfl
  | cons c rest ih =>
    rw [List.flatMap_cons, ih (fun x hx => hl x (List.mem_cons_of_mem _ hx))]
    have h := hl c (List.mem_cons_self _ _)
    have hc : java_edges_of_child c = [] := by
      unfold java_edges_of_child
      rw [if_neg h.1, if_neg h.2.1, if_neg h.2.2]
    rw [hc, List.nil_append]

/-- Flattening the harvest of one clause into `(name, kind)` edges. -/
theorem java_clause_flatMap_eq (kind : String) (l : List Node) :
    (l.flatMap fun sub =>
      match truthyStr (extract_java_type_name sub) with
      | some tn => [(tn, kind)]
      | none => []) = (java_clause_names l).map (fun tn => (tn, kind)) := by
  induction l with
  | nil => rfl
  | cons c rest ih =>
    rw [List.flatMap_cons, ih]
    unfold java_clause_names
    rw [List.filterMap_cons]
    cases truthyStr (extract_java_type_name c) <;> simp

/-- C6: a Java class declared with an `extends` clause naming one class
and an `implements` clause naming two interfaces yields exactly three
inheritance edges: one `extends` and two `implements`, in clause
order. -/
theorem C6_java_extends_implements (n : Node) (pre mid post : List Node) (sc si : Node)
    (a i1 i2 : String) (siPre siPost : List Node) (tl : Node)
    (hch : n.children = pre ++ sc :: (mid ++ si :: post))
    (hother : ∀ c ∈ pre ++ mid ++ post, ¬ c.ntype = "superclass" ∧
      ¬ c.ntype = "super_interfaces" ∧ ¬ c.ntype = "extends_interfaces")
    (hsc : sc.ntype = "superclass")
    (hscName : java_clause_names sc.children = [a])
    (hsi : si.ntype = "super_interfaces")
    (hsiCh : si.children = siPre ++ tl :: siPost)
    (hsiPre : ∀ c ∈ siPre, ¬ c.ntype = "type_list")
    (hsiPost : ∀ c ∈ siPost, ¬ c.ntype = "type_list")
    (htl : tl.ntype = "type_list")
    (htlNames : java_clause_names tl.children = [i1, i2]) :
    get_java_supertypes n = [(a, "extends"), (i1, "implements"), (i2, "implements")] := by
  unfold get_java_supertypes
  rw [hch, List.flatMap_append, List.flatMap_cons, List.flatMap_append, List.flatMap_cons]
  rw [java_edges_nil_of_no_clause pre (fun c hc => hother c (by simp [hc]))]
  rw [java_edges_nil_of_no_clause mid (fun c hc => hother c (by simp [hc]))]
  rw [java_edges_nil_of_no_clause post (fun c hc => hother c (by simp [hc]))]
  have hscE : java_edges_of_child sc = [(a, "extends")] := by
    unfold java_edges_of_child
    rw [if_pos hsc, java_clause_flatMap_eq, hscName]
    rfl
  have hsiE : java_edges_of_child si = [(i1, "implements"), (i2, "implements")] := by
    unfold java_edges_of_child
    have hnsc : ¬ si.ntype = "superclass" := by rw [hsi]; decide
    rw [if_neg hnsc, if_pos hsi, hsiCh, List.flatMap_append, List.flatMap_cons]
    have hnil : ∀ l : List Node, (∀ c ∈ l, ¬ c.ntype = "type_list") →
        (l.flatMap fun sub =>
          if sub.ntype = "type_list" then
            sub.children.flatMap fun tnode =>
              match truthyStr (extract_java_type_name tnode) with
              | some tn => [(tn, "implements")]
              | none => []
          else []) = [] := by
      intro l hl
      induction l with
      | nil => rfl
      | cons c rest ih =>
        rw [List.flatMap_cons, ih (fun x hx => hl x (List.mem_cons_of_mem _ hx)),
          if_neg (hl c (List.mem_cons_self _ _)), List.nil_append]
    rw [hnil siPre hsiPre, hnil siPost hsiPost, if_pos htl,
      java_clause_flatMap_eq, htlNames]
    rfl
  rw [hscE, hsiE]
  rfl

/-- Witness for C6 at the tree of
`class C extends A implements I1, I2`. -/
theorem C6_java_extends_implements_witness :
    get_java_supertypes java_class_C_A_I1_I2 =
      [("A", "extends"), ("I1", "implements"), ("I2", "implements")] :=
  C6_java_extends_implements java_class_C_A_I1_I2
    [Node.node "identifier" "C" 1 1 []] []
    [Node.node "class_body" "" 1 5 []]
    (Node.node "superclass" "" 1 1
      [Node.node "extends" "extends" 1 1 [],
       Node.node "type_identifier" "A" 1 1 []])
    (Node.node "super_interfaces" "" 1 1
      [Node.node "implements" "implements" 1 1 [],
       Node.node "type_list" "" 1 1
         [Node.node "type_identifier" "I1" 1 1 [],
          Node.node "," "," 1 1 [],
          Node.node "type_identifier" "I2" 1 1 []]])
    "A" "I1" "I2"
    [Node.node "implements" "implements" 1 1 []] []
    (Node.node "type_list" "" 1 1
      [Node.node "type_identifier" "I1" 1 1 [],
       Node.node "," "," 1 1 [],
       Node.node "type_identifier" "I2" 1 1 []])
    rfl
    (by
      intro c hc
      simp only [List.append_nil, List.mem_append, List.mem_cons, List.not_mem_nil,
        or_false] at hc
      rcases hc with hc | hc <;> subst hc <;> exact ⟨by decide, by decide, by decide⟩)
    rfl rfl rfl rfl
    (by intro c hc; simp at hc; subst hc; decide)
    (by intro c hc; simp at hc)
    rfl rfl

/-! ## C7 -/

/-- C7: under the grammar-based walk, a function declared lexically
inside a class body is stored with `parent_symbol_id` equal to the
enclosing class's freshly inserted row id (the nearest enclosing emitted
symbol), and a file-top-level function is stored with
`parent_symbol_id` NULL — for any non-empty names, in both the Kotlin
and the Java walk. -/
theorem C7_parent_symbol_linking (cn fn gn jn jm : String)
    (hcn : ¬ cn = "") (hfn : ¬ fn = "") (hgn : ¬ gn = "")
    (hjn : ¬ jn = "") (hjm : ¬ jm = "") :
    (kotlin_visit_node 1 (c7_kotlin_tree cn fn gn) none Store.empty).symbols =
      [⟨1, cn, "class", 1, 1, some 5, none, none⟩,
       ⟨2, fn, "function", 1, 2, some 3, some "()", some 1⟩,
       ⟨3, gn, "function", 1, 7, some 8, some "()", none⟩] ∧
    (java_visit_node 1 (c7_java_tree jn jm) none Store.empty).symbols =
      [⟨1, jn, "class", 1, 1, some 5, none, none⟩,
       ⟨2, jm, "function", 1, 2, some 3, some "()", some 1⟩] := by
  constructor
  · simp [c7_kotlin_tree, kotlin_visit_node, kotlin_visit_children, kotlin_classify,
      detect_kotlin_class_type, detect_kotlin_class_type.go, get_identifier,
      get_property_name, get_property_type, truthyStr, upsert_symbol, Store.empty,
      add_inheritance_list, get_kotlin_supertypes, kotlin_edges_of_child,
      Node.ntype, Node.text, Node.children, Node.startLine, Node.endLine,
      hcn, hfn, hgn]
  · simp [c7_java_tree, java_visit_node, java_visit_children, java_classify,
      get_java_identifier, get_java_field_name, truthyStr, upsert_symbol, Store.empty,
      add_inheritance_list, get_java_supertypes, java_edges_of_child,
      Node.ntype, Node.text, Node.children, Node.startLine, Node.endLine,
      hjn, hjm]

/-- Witness for C7 at concrete names. -/
theorem C7_parent_symbol_linking_witness :
    (kotlin_visit_node 1 (c7_kotlin_tree "C" "f" "g") none Store.empty).symbols =
      [⟨1, "C", "class", 1, 1, some 5, none, none⟩,
       ⟨2, "f", "function", 1, 2, some 3, some "()", some 1⟩,
       ⟨3, "g", "function", 1, 7, some 8, some "()", none⟩] ∧
    (java_visit_node 1 (c7_java_tree "J" "m") none Store.empty).symbols =
      [⟨1, "J", "class", 1, 1, some 5, none, none⟩,
       ⟨2, "m", "function", 1, 2, some 3, some "()", some 1⟩] :=
  C7_parent_symbol_linking "C" "f" "g" "J" "m"
    (by decide) (by decide) (by decide) (by decide) (by decide)

/-! ## C3 -/

/-- A reference row emitted for one line carries that line's number, and
only a line that passed the skip test emits at all. -/
theorem mem_index_line_refs (known : List String) (file_id ln : ℕ) (line : String)
    (row : ReferenceRow) (h : row ∈ index_line_refs known file_id ln line) :
    ref_skip_line line = false ∧ row.line = ln := by
  by_cases hs : ref_skip_line line = true
  · rw [index_line_refs, if_pos hs] at h
    exact absurd h (List.not_mem_nil _)
  · refine ⟨Bool.eq_false_iff.mpr hs, ?_⟩
    rw [index_line_refs, if_neg hs] at h
    obtain ⟨pt, _, hrow⟩ := List.mem_filterMap.mp h
    by_cases hk : known.contains pt.2 = true
    · rw [if_pos hk] at hrow
      cases hrow
      rfl
    · rw [if_neg hk] at hrow
      cases hrow

/-- Every row the line loop emits comes from a line at its recorded
number, and that line failed the skip test. -/
theorem mem_index_lines_refs (known : List String) (file_id : ℕ) :
    ∀ (ln : ℕ) (lines : List String) (row : ReferenceRow),
      row ∈ index_lines_refs known file_id ln lines →
      ∃ i line, lines.get? i = some line ∧ row.line = ln + i ∧
        ref_skip_line line = false := by
  intro ln lines
  induction lines generalizing ln with
  | nil =>
    intro row h
    exact absurd h (List.not_mem_nil _)
  | cons l rest ih =>
    intro row h
    rw [index_lines_refs] at h
    rcases List.mem_append.mp h with h1 | h2
    · obtain ⟨hskip, hline⟩ := mem_index_line_refs known file_id ln l row h1
      exact ⟨0, l, rfl, by simpa using hline, hskip⟩
    · obtain ⟨i, line, hget, hln, hskip⟩ := ih (ln + 1) row h2
      exact ⟨i + 1, line, by simpa using hget, by omega, hskip⟩

/-- C3 counterexample: the line `/* Foo */` is a comment (a block
comment opened and closed on the line), yet with `Foo` among the known
symbols the scanner emits a reference row for it — the skip test only
recognizes lines starting with `//`, `*` or `import `. -/
theorem C3_counterexample :
    spec_is_comment_line "/* Foo */" = true ∧
    index_line_refs ["Foo"] 1 1 "/* Foo */" =
      [⟨"Foo", 1, 1, "reference"⟩] := by
  constructor
  · decide
  · decide

/-- C3 (amended): a reference row is only ever emitted from a line whose
stripped text does not start with `//`, `*` or `import ` — such lines
are skipped entirely and contribute zero references whatever known
symbol names they contain; comment lines of any other shape are still
scanned. `lines` is the file content split on newlines, scanned from
line number 1. -/
theorem C3_skip_lines_amended (known : List String) (file_id : ℕ)
    (lines : List String) (row : ReferenceRow)
    (h : row ∈ index_lines_refs known file_id 1 lines) :
    1 ≤ row.line ∧
    ∃ line, lines.get? (row.line - 1) = some line ∧ ref_skip_line line = false := by
  obtain ⟨i, line, hget, hln, hskip⟩ := mem_index_lines_refs known file_id 1 lines row h
  refine ⟨by omega, line, ?_, hskip⟩
  rw [show row.line - 1 = i by omega]
  exact hget

/-- Witness for C3 on a two-line file whose first line is an import:
the emitted row comes from line 2, which is not skipped. -/
theorem C3_skip_lines_amended_witness :
    1 ≤ (2 : ℕ) ∧
    ∃ line, ["import Foo", "val x = Foo()"].get? ((2 : ℕ) - 1) = some line ∧
      ref_skip_line line = false :=
  C3_skip_lines_amended ["Foo"] 1 ["import Foo", "val x = Foo()"]
    ⟨"Foo", 1, 2, "call"⟩ (by decide)

/-! ## C10 -/

/-- A `%` at the head of a pattern may match the empty sequence. -/
theorem likeMatch_pct_of_match (ps s : List Char) (h : likeMatch ps s = true) :
    likeMatch ('%' :: ps) s = true := by
  rw [likeMatch.eq_def]
  simp [h]

/-- A `%` at the head of a pattern may also swallow one more character. -/
theorem likeMatch_pct_cons (ps s : List Char) (c : Char)
    (h : likeMatch ('%' :: ps) s = true) :
    likeMatch ('%' :: ps) (c :: s) = true := by
  rw [likeMatch.eq_def]
  simp [h]

/-- The empty pattern matches the empty string. -/
theorem likeMatch_nil_nil : likeMatch [] [] = true := by
  rw [likeMatch.eq_def]

/-- The pattern `%` alone matches everything. -/
theorem likeMatch_pct_all (b : List Char) : likeMatch ['%'] b = true := by
  induction b with
  | nil =>
    rw [likeMatch.eq_def]
    simp [likeMatch_nil_nil]
  | cons c b' ih =>
    rw [likeMatch.eq_def]
    simp [ih]

/-- A pattern ending in `%` matches any string starting with the
pattern's literal part. -/
theorem likeMatch_self_pct : ∀ (q b : List Char), likeMatch (q ++ ['%']) (q ++ b) = true := by
  intro q
  induction q with
  | nil =>
    intro b
    simpa using likeMatch_pct_all b
  | cons c q' ihq =>
    intro b
    by_cases hp : c = '%'
    · subst hp
      have h1 := likeMatch_pct_of_match (q' ++ ['%']) (q' ++ b) (ihq b)
      have h2 := likeMatch_pct_cons (q' ++ ['%']) (q' ++ b) '%' h1
      simpa using h2
    · by_cases hu : c = '_'
      · subst hu
        rw [List.cons_append, List.cons_append, likeMatch.eq_def]
        simpa using ihq b
      · rw [List.cons_append, List.cons_append, likeMatch.eq_def]
        simp [hp, hu, ihq b]

/-- A substring occurrence makes `LIKE '%q%'` match: the leading `%`
swallows the prefix, the literal part matches itself, the trailing `%`
swallows the rest. -/
theorem likeMatch_of_isInfix (q s : List Char) (h : List.IsInfix q s) :
    likeMatch ('%' :: (q ++ ['%'])) s = true := by
  obtain ⟨a, b, hab⟩ := h
  subst hab
  induction a with
  | nil => exact likeMatch_pct_of_match _ _ (by simpa using likeMatch_self_pct q b)
  | cons x a' ih => exact likeMatch_pct_cons _ _ x ih

/-- C10: `get_module_dependents q` returns a row for every `module_deps`
edge whose `dep_module_name` contains `q` anywhere as a substring,
joined to its owning module — matching is by `LIKE '%q%'`, not by exact
name, so dependents of any module whose name merely contains `q` are
returned. -/
theorem C10_dependents_substring_match (modules : List ModuleRow)
    (module_deps : List ModuleDepRow) (q : String)
    (md : ModuleDepRow) (m : ModuleRow)
    (h1 : md ∈ module_deps) (h2 : m ∈ modules) (h3 : md.module_id = m.id)
    (h4 : List.IsInfix q.data md.dep_module_name.data) :
    (⟨m.name, md.dep_type⟩ : DependentRow) ∈
      get_module_dependents modules module_deps q := by
  unfold get_module_dependents
  rw [List.Perm.mem_iff (List.mergeSort_perm _ _)]
  refine List.mem_flatMap.mpr ⟨md, h1, ?_⟩
  refine List.mem_filterMap.mpr ⟨m, h2, ?_⟩
  rw [if_pos]
  refine ⟨h3, ?_⟩
  show sqliteLike ("%" ++ q ++ "%") md.dep_module_name = true
  unfold sqliteLike
  have hdata : ("%" ++ q ++ "%").data = '%' :: (q.data ++ ['%']) := by
    simp [String.data_append]
  rw [hdata]
  exact likeMatch_of_isInfix q.data md.dep_module_name.data h4

/-- Witness for C10: the module `app.main` depends on
`features.payments.api`; a dependent lookup for the mere fragment
`payments` returns it. -/
theorem C10_dependents_substring_match_witness :
    (⟨"app.main", "implementation"⟩ : DependentRow) ∈
      get_module_dependents [⟨1, "app.main", "/app", "app"⟩]
        [⟨1, "features.payments.api", "implementation"⟩] "payments" :=
  C10_dependents_substring_match _ _ "payments"
    ⟨1, "features.payments.api", "implementation"⟩ ⟨1, "app.main", "/app", "app"⟩
    (by decide) (by decide) rfl
    ⟨"features.".data, ".api".data, by decide⟩

end KI
